import Mathlib

/-!
Verification of the real-time chat/presence core of the UCN-Community backend
(`backend/server.js`, plus the read-marking path in
`backend/controllers/chatControllerSimple.js` and
`backend/models/MessageSimple.js`).

The Socket.IO event handlers are embedded shallowly: the three module-level
maps (`connectedUsers`, `userSockets`, `typingUsers`), the Socket.IO adapter's
room membership, and Node's queue of armed `setTimeout` callbacks are one
explicit `ServerState`; each handler is a pure function from a state (plus the
handler's inputs and the relevant persisted-store contents) to a new state and
the ordered list of events it emits.  JavaScript `Map`s become association
lists over `Nat` keys, `Set`s become duplicate-free `List Nat`s, and the
fallible Mongoose calls are modelled by passing the persisted store (or a
success flag for `Message.create`) as an argument.
-/

namespace UCN

/-- Lookup in an association list, mirroring JavaScript `Map.get`. -/
def alookup {α : Type} (k : Nat) : List (Nat × α) → Option α
  | [] => none
  | (k', v) :: rest => if k' = k then some v else alookup k rest

/-- Replace the binding of `k` (first occurrence) or append it, mirroring
JavaScript `Map.set`. -/
def aset {α : Type} (k : Nat) (v : α) : List (Nat × α) → List (Nat × α)
  | [] => [(k, v)]
  | (k', v') :: rest => if k' = k then (k, v) :: rest else (k', v') :: aset k v rest

/-- Remove every binding of `k`, mirroring JavaScript `Map.delete` (keys are
unique in a `Map`, so on well-formed states this removes the one binding). -/
def aremove {α : Type} (k : Nat) : List (Nat × α) → List (Nat × α)
  | [] => []
  | (k', v) :: rest => if k' = k then aremove k rest else (k', v) :: aremove k rest

/-- Boolean duplicate-freedom check for key lists. -/
def nodupB : List Nat → Bool
  | [] => true
  | x :: xs => (!xs.contains x) && nodupB xs

/-- The per-connection record stored in `connectedUsers` (server.js:185-193);
the fields the handlers and outgoing payloads actually use. -/
structure ConnInfo where
  userId : Nat
  name : String
  avatar : String
  connectedAt : Nat
deriving DecidableEq, Repr

/-- The `type` field of the `error` events emitted by the handlers. -/
inductive ErrType where
  | INVALID_DATA
  | CHAT_NOT_FOUND
  | ACCESS_DENIED
  | MESSAGE_TOO_LONG
  | SERVER_ERROR
deriving DecidableEq, Repr

/-- The server-to-client events emitted by the Socket.IO handlers, with the
payload fields the claims depend on. -/
inductive Event where
  | user_online (userId : Nat)
  | online_users (users : List ConnInfo)
  | user_offline (userId : Nat)
  | user_joined_chat (userId chat : Nat)
  | chat_joined (chat : Nat)
  | user_typing (userId chat : Nat) (isTyping : Bool)
  | user_left_chat (userId chat : Nat)
  | receive_message (senderId chat : Nat) (mensaje : String)
  | error (etype : ErrType)
deriving DecidableEq, Repr

/-- An emission: which Socket.IO channel an `Event` goes out on. -/
inductive Emit where
  /-- `socket.emit(...)`: to one connection only. -/
  | toSocket (sid : Nat) (e : Event)
  /-- `socket.broadcast.emit(...)`: to every connection except `sid`. -/
  | broadcastExcept (sid : Nat) (e : Event)
  /-- `socket.to('chat_c').emit(...)`: to the room's subscribers except `sid`. -/
  | toRoomExcept (chat sid : Nat) (e : Event)
  /-- `io.to('chat_c').emit(...)`: to every subscriber of the room. -/
  | toRoom (chat : Nat) (e : Event)
deriving DecidableEq, Repr

/-- One armed `setTimeout` from the `typing` handler (server.js:392-403); the
closure captures the chat id, the typing user and the socket. -/
structure TypingTimer where
  chat : Nat
  userId : Nat
  sid : Nat
  fireAt : Nat
deriving DecidableEq, Repr

/-- The in-memory state of the real-time core: the three module-level maps of
server.js:146-148, the Socket.IO adapter's room-membership map, and the queue
of armed (not yet fired) typing timeouts. -/
structure ServerState where
  connectedUsers : List (Nat × ConnInfo)
  userSockets : List (Nat × List Nat)
  typingUsers : List (Nat × List Nat)
  rooms : List (Nat × List Nat)
  pendingTimers : List TypingTimer
deriving DecidableEq, Repr

/-- The persisted chat documents as the handlers read them: chat id mapped to
its `participantes` (`Chat.findById` + membership check). -/
def ChatStore := List (Nat × List Nat)

/-- The `online_users` snapshot sent to a newly connected client
(server.js:210-217): one entry per entry of `connectedUsers`, i.e. one entry
per live connection. -/
def onlineSnapshot (st : ServerState) : List ConnInfo :=
  st.connectedUsers.map Prod.snd

/-- The `get_online_users` reply (server.js:503-515): one entry per key of
`userSockets`, each resolved through `find` over `connectedUsers` values and
`null`-filtered. -/
def getOnlineUsersList (st : ServerState) : List ConnInfo :=
  st.userSockets.filterMap
    (fun q => (st.connectedUsers.find? (fun p => p.2.userId == q.1)).map Prod.snd)

/-- The `io.on('connection')` prologue (server.js:184-217): register the
connection, add the socket to the user's socket set (creating it when absent),
broadcast `user_online` to everyone else, and send the per-connection
`online_users` snapshot to the new client. -/
def handleConnection (st : ServerState) (sid : Nat) (info : ConnInfo) :
    ServerState × List Emit :=
  let cu := aset sid info st.connectedUsers
  let sockets := (alookup info.userId st.userSockets).getD []
  let us := aset info.userId
    (if sid ∈ sockets then sockets else sockets ++ [sid]) st.userSockets
  let st' := { st with connectedUsers := cu, userSockets := us }
  (st', [Emit.broadcastExcept sid (Event.user_online info.userId),
         Emit.toSocket sid (Event.online_users (onlineSnapshot st'))])

/-- The `join_chat` handler (server.js:220-277): validate the input, re-read
the chat from the persisted store, check membership, then subscribe the socket
to the room and notify. -/
def handleJoinChat (chats : ChatStore) (st : ServerState) (sid uid : Nat)
    (chatId : Option Nat) : ServerState × List Emit :=
  match chatId with
  | none => (st, [Emit.toSocket sid (Event.error ErrType.INVALID_DATA)])
  | some cid =>
    match alookup cid chats with
    | none => (st, [Emit.toSocket sid (Event.error ErrType.CHAT_NOT_FOUND)])
    | some parts =>
      if uid ∈ parts then
        let members := (alookup cid st.rooms).getD []
        let rooms' := aset cid (if sid ∈ members then members else members ++ [sid]) st.rooms
        ({ st with rooms := rooms' },
         [Emit.toRoomExcept cid sid (Event.user_joined_chat uid cid),
          Emit.toSocket sid (Event.chat_joined cid)])
      else
        (st, [Emit.toSocket sid (Event.error ErrType.ACCESS_DENIED)])

/-- One step of the `send_message` handler's observable behaviour: either a
call into the persistence collaborator or an emission. -/
inductive Step where
  /-- `Message.create(...)` (server.js:316-322); `ok` records whether the
  awaited call succeeded or threw. -/
  | persist (ok : Bool) (chat uid : Nat) (mensaje : String)
  /-- `Chat.findByIdAndUpdate(...)` updating the chat's last-message summary
  (server.js:328-331). -/
  | updateSummary (chat : Nat)
  /-- An emission to the transport. -/
  | out (e : Emit)
deriving DecidableEq, Repr

/-- The `send_message` handler (server.js:280-361) as the ordered trace of its
persistence calls and emissions.  A thrown `Message.create` (modelled by
`persistOk = false`) is caught by the surrounding `try`/`catch`, which sends a
`SERVER_ERROR` error to the sender only. -/
def handleSendMessage (chats : ChatStore) (persistOk : Bool) (sid uid : Nat)
    (chatId : Option Nat) (mensaje : Option String) : List Step :=
  match chatId, mensaje with
  | none, _ => [Step.out (Emit.toSocket sid (Event.error ErrType.INVALID_DATA))]
  | some _, none => [Step.out (Emit.toSocket sid (Event.error ErrType.INVALID_DATA))]
  | some cid, some m =>
    if m.trim.length = 0 then
      [Step.out (Emit.toSocket sid (Event.error ErrType.INVALID_DATA))]
    else if m.length > 1000 then
      [Step.out (Emit.toSocket sid (Event.error ErrType.MESSAGE_TOO_LONG))]
    else
      match alookup cid chats with
      | none => [Step.out (Emit.toSocket sid (Event.error ErrType.CHAT_NOT_FOUND))]
      | some parts =>
        if uid ∈ parts then
          if persistOk then
            [Step.persist true cid uid m.trim,
             Step.updateSummary cid,
             Step.out (Emit.toRoom cid (Event.receive_message uid cid m.trim))]
          else
            [Step.persist false cid uid m.trim,
             Step.out (Emit.toSocket sid (Event.error ErrType.SERVER_ERROR))]
        else
          [Step.out (Emit.toSocket sid (Event.error ErrType.ACCESS_DENIED))]

/-- The `typing` handler (server.js:364-405): a falsy `chat_id` returns
silently; otherwise the typing set is created on demand and updated, the room
is notified, and when `isTyping` is true a fresh 3-second `setTimeout` is
armed (appended — the source never cancels or replaces an armed timeout). -/
def handleTyping (st : ServerState) (sid uid : Nat) (chatId : Option Nat)
    (isTyping : Bool) (now : Nat) : ServerState × List Emit :=
  match chatId with
  | none => (st, [])
  | some cid =>
    let s0 := (alookup cid st.typingUsers).getD []
    let s1 := if isTyping then (if uid ∈ s0 then s0 else s0 ++ [uid]) else s0.erase uid
    let timers := if isTyping
      then st.pendingTimers ++ [⟨cid, uid, sid, now + 3000⟩]
      else st.pendingTimers
    ({ st with typingUsers := aset cid s1 st.typingUsers, pendingTimers := timers },
     [Emit.toRoomExcept cid sid (Event.user_typing uid cid isTyping)])

/-- Expiry of one armed typing timeout (the `setTimeout` callback,
server.js:392-403): if the chat still has a typing-set entry — membership of
the user is not checked — the user is deleted from it and `typing=false` is
broadcast to the room.  The fired timer leaves the pending queue. -/
def fireTimer (st : ServerState) (t : TypingTimer) : ServerState × List Emit :=
  let st0 := { st with pendingTimers := st.pendingTimers.erase t }
  match alookup t.chat st.typingUsers with
  | none => (st0, [])
  | some s =>
    ({ st0 with typingUsers := aset t.chat (s.erase t.userId) st.typingUsers },
     [Emit.toRoomExcept t.chat t.sid (Event.user_typing t.userId t.chat false)])

/-- The `stop_typing` handler (server.js:408-426): a falsy `chat_id` returns
silently; otherwise the user is removed from the typing set (when the set
exists) and `typing=false` is broadcast — armed timeouts are left untouched. -/
def handleStopTyping (st : ServerState) (sid uid : Nat) (chatId : Option Nat) :
    ServerState × List Emit :=
  match chatId with
  | none => (st, [])
  | some cid =>
    let typ := match alookup cid st.typingUsers with
      | some s => aset cid (s.erase uid) st.typingUsers
      | none => st.typingUsers
    ({ st with typingUsers := typ },
     [Emit.toRoomExcept cid sid (Event.user_typing uid cid false)])

/-- The `leave_chat` handler (server.js:429-449): a falsy `chat_id` returns
silently; otherwise `socket.leave` removes the socket from that room, the user
is dropped from the room's typing set, and `user_left_chat` is broadcast to
the room — unconditionally, whether or not the socket was subscribed. -/
def handleLeaveChat (st : ServerState) (sid uid : Nat) (chatId : Option Nat) :
    ServerState × List Emit :=
  match chatId with
  | none => (st, [])
  | some cid =>
    let rooms' := st.rooms.map (fun p => if p.1 = cid then (p.1, p.2.erase sid) else p)
    let typ' := st.typingUsers.map (fun p => if p.1 = cid then (p.1, p.2.erase uid) else p)
    ({ st with rooms := rooms', typingUsers := typ' },
     [Emit.toRoomExcept cid sid (Event.user_left_chat uid cid)])

/-- The `disconnect` handler (server.js:452-495) together with Socket.IO's
automatic removal of a disconnected socket from every room it had joined (the
handler itself never touches rooms and never emits a room-level "member left"
event).  Presence: the socket is dropped from its user's socket set and, when
that set becomes empty, the entry is deleted and `user_offline` is broadcast;
then every typing set still holding the user is cleaned with a `typing=false`
broadcast, and the connection record is removed. -/
def handleDisconnect (st : ServerState) (sid : Nat) : ServerState × List Emit :=
  let rooms' := st.rooms.map (fun p => (p.1, p.2.erase sid))
  match alookup sid st.connectedUsers with
  | none => ({ st with rooms := rooms' }, [])
  | some info =>
    let presence : List (Nat × List Nat) × List Emit :=
      match alookup info.userId st.userSockets with
      | none => (st.userSockets, [])
      | some s =>
        let s' := s.erase sid
        if s'.isEmpty then
          (aremove info.userId st.userSockets,
           [Emit.broadcastExcept sid (Event.user_offline info.userId)])
        else
          (aset info.userId s' st.userSockets, [])
    let typingEmits := (st.typingUsers.filter (fun p => info.userId ∈ p.2)).map
      (fun p => Emit.toRoomExcept p.1 sid (Event.user_typing info.userId p.1 false))
    let typing' := st.typingUsers.map (fun p => (p.1, p.2.erase info.userId))
    ({ st with connectedUsers := aremove sid st.connectedUsers,
               userSockets := presence.1,
               typingUsers := typing',
               rooms := rooms' },
     presence.2 ++ typingEmits)

/-- The `get_online_users` handler (server.js:503-515). -/
def handleGetOnlineUsers (st : ServerState) (sid : Nat) : ServerState × List Emit :=
  (st, [Emit.toSocket sid (Event.online_users (getOnlineUsersList st))])

/-- Consistency of the two presence maps, as server.js maintains it: map keys
are unique; every registered connection's socket id sits in its user's socket
set; every socket set is non-empty, duplicate-free, and each of its ids is a
registered connection of that very user. -/
def wf (st : ServerState) : Bool :=
  nodupB (st.connectedUsers.map Prod.fst) &&
  nodupB (st.userSockets.map Prod.fst) &&
  st.connectedUsers.all (fun p =>
    match alookup p.2.userId st.userSockets with
    | some s => p.1 ∈ s
    | none => false) &&
  st.userSockets.all (fun q =>
    (!q.2.isEmpty) && nodupB q.2 &&
    q.2.all (fun sid =>
      match alookup sid st.connectedUsers with
      | some info => info.userId == q.1
      | none => false))

/-- Does this emission carry `user_offline` for user `u` (on any channel)? -/
def isOfflineFor (u : Nat) : Emit → Bool
  | Emit.toSocket _ (Event.user_offline u') => u' == u
  | Emit.broadcastExcept _ (Event.user_offline u') => u' == u
  | Emit.toRoomExcept _ _ (Event.user_offline u') => u' == u
  | Emit.toRoom _ (Event.user_offline u') => u' == u
  | _ => false

/-- Number of `user_offline` events for `u` in an emission list. -/
def countOffline (u : Nat) (l : List Emit) : Nat :=
  (l.filter (isOfflineFor u)).length

/-- `disconnect(sid)` removes the last remaining connection of user `u`:
the socket is a registered connection of `u` and erasing it empties `u`'s
socket set. -/
def lastConnB (st : ServerState) (u sid : Nat) : Bool :=
  match alookup sid st.connectedUsers with
  | none => false
  | some info =>
    (info.userId == u) &&
    (match alookup info.userId st.userSockets with
     | none => false
     | some s => (s.erase sid).isEmpty)

/-- Run a sequence of `disconnect` events, collecting all emissions. -/
def runDiscs (st : ServerState) : List Nat → ServerState × List Emit
  | [] => (st, [])
  | sid :: rest =>
    let r := handleDisconnect st sid
    let r' := runDiscs r.1 rest
    (r'.1, r.2 ++ r'.2)

/-- Number of entries for user `u` in an outgoing online-user list. -/
def countFor (l : List ConnInfo) (u : Nat) : Nat :=
  (l.filter (fun i => i.userId == u)).length

/-- Demo connection records: three sockets, two of them tabs of user 10. -/
def infoA1 : ConnInfo := ⟨10, "ana", "a.png", 0⟩

def infoA2 : ConnInfo := ⟨10, "ana", "a.png", 1⟩

def infoA3 : ConnInfo := ⟨10, "ana", "a.png", 3⟩

def infoB : ConnInfo := ⟨20, "ben", "b.png", 2⟩

/-- Concrete state: user 10 online with sockets 1 and 2, user 20 with socket
3; sockets 1 and 3 subscribed to room 7. -/
def stDemo : ServerState :=
  { connectedUsers := [(1, infoA1), (2, infoA2), (3, infoB)]
  , userSockets := [(10, [1, 2]), (20, [3])]
  , typingUsers := []
  , rooms := [(7, [1, 3])]
  , pendingTimers := [] }

/-- The event carried by an emission, whatever its channel. -/
def emitEvent : Emit → Event
  | Emit.toSocket _ e => e
  | Emit.broadcastExcept _ e => e
  | Emit.toRoomExcept _ _ e => e
  | Emit.toRoom _ e => e

/-- Is this a `receive_message` event? -/
def isReceiveEvent : Event → Bool
  | Event.receive_message _ _ _ => true
  | _ => false

/-- Does this step emit `receive_message` on any channel? -/
def stepHasReceive : Step → Bool
  | Step.out e => isReceiveEvent (emitEvent e)
  | _ => false

/-- Is this step a successful persistence call? -/
def stepIsPersistOk : Step → Bool
  | Step.persist ok _ _ _ => ok
  | _ => false

/-- Does this step avoid emitting to anyone but the single connection `sid`?
(Non-emission steps vacuously do.) -/
def stepOnlyToSocket (sid : Nat) : Step → Bool
  | Step.out (Emit.toSocket sid' _) => sid' == sid
  | Step.out _ => false
  | _ => true

/-- Is this emission an `error` event? -/
def isErrorEmit (e : Emit) : Bool :=
  match emitEvent e with
  | Event.error _ => true
  | _ => false

/-- Is this emission a `user_left_chat` ("member left") event? -/
def isLeftChatEmit (e : Emit) : Bool :=
  match emitEvent e with
  | Event.user_left_chat _ _ => true
  | _ => false

/-- Concrete persisted chat 5 whose participants are users 10 and 20. -/
def demoChats : ChatStore := [(5, [10, 20])]

/-- The same chat after user 10 has been removed from its persisted
membership. -/
def demoChats2 : ChatStore := [(5, [20])]

/-- A persisted `MessageSimple` document (MessageSimple.js:3-38): the fields
`getChatMessages` touches; `readBy` is the list of `(user, readAt)` markers. -/
structure MsgDoc where
  mid : Nat
  chat : Nat
  sender : Nat
  content : String
  createdAt : Nat
  readBy : List (Nat × Nat)
deriving DecidableEq, Repr

/-- The persisted store read and written by the simple chat controller: chats
with their `participants`, and the message collection. -/
structure SimpleStore where
  chats : List (Nat × List Nat)
  messages : List MsgDoc
deriving DecidableEq, Repr

/-- Insertion into a list sorted by `createdAt` descending (the
`.sort({createdAt: -1})` of the messages query). -/
def insertByDateDesc (m : MsgDoc) : List MsgDoc → List MsgDoc
  | [] => [m]
  | x :: xs => if m.createdAt ≤ x.createdAt then x :: insertByDateDesc m xs
               else m :: x :: xs

/-- Sort by `createdAt` descending. -/
def sortByDateDesc : List MsgDoc → List MsgDoc
  | [] => []
  | x :: xs => insertByDateDesc x (sortByDateDesc xs)

/-- `markAsRead` (MessageSimple.js:52-66): append a `(user, readAt)` marker
unless one for this user already exists. -/
def markAsRead (m : MsgDoc) (uid now : Nat) : MsgDoc :=
  if m.readBy.any (fun r => r.1 == uid) then m
  else { m with readBy := m.readBy ++ [(uid, now)] }

/-- The HTTP-level outcome of `getChatMessages`. -/
inductive FetchResult where
  | notFound
  | forbidden
  | ok (page : List MsgDoc) (total : Nat)
deriving DecidableEq, Repr

/-- `getChatMessages` (chatControllerSimple.js:186-283): re-read the chat,
check the requester is a participant, page through the date-sorted messages
of the chat, and — as a side effect of the fetch — append a read marker for
every fetched message that was not sent by the requester and does not already
carry their marker.  Returns the response and the updated store. -/
def getChatMessages (store : SimpleStore) (uid cid page limit now : Nat) :
    FetchResult × SimpleStore :=
  match alookup cid store.chats with
  | none => (FetchResult.notFound, store)
  | some parts =>
    if uid ∈ parts then
      let pageNum := max 1 page
      let limitNum := min 100 (max 1 limit)
      let skip := (pageNum - 1) * limitNum
      let sorted := sortByDateDesc (store.messages.filter (fun m => m.chat == cid))
      let msgs := (sorted.drop skip).take limitNum
      let unread := msgs.filter
        (fun m => (!(m.sender == uid)) && !(m.readBy.any (fun r => r.1 == uid)))
      let messages' := store.messages.map
        (fun m => if unread.any (fun m' => m'.mid == m.mid) then markAsRead m uid now else m)
      (FetchResult.ok msgs (store.messages.filter (fun m => m.chat == cid)).length,
       { store with messages := messages' })
    else (FetchResult.forbidden, store)

/-- Concrete persisted store: chat 1 between users 2 and 3, holding one
message from user 3 that user 2 has not read. -/
def demoStore : SimpleStore :=
  { chats := [(1, [2, 3])]
  , messages := [⟨100, 1, 3, "hola", 5, []⟩] }

theorem nodupB_iff (l : List Nat) : nodupB l = true ↔ l.Nodup := by
  induction l with
  | nil => simp [nodupB]
  | cons x xs ih => simp [nodupB, ih, List.nodup_cons]

theorem aset_key_hit {α : Type} (k : Nat) (v : α) (p : Nat × α) (rest : List (Nat × α))
    (hp : p.1 = k) : aset k v (p :: rest) = (k, v) :: rest := by
  simp [aset, hp]

theorem aset_key_miss {α : Type} (k : Nat) (v : α) (p : Nat × α) (rest : List (Nat × α))
    (hp : p.1 ≠ k) : aset k v (p :: rest) = p :: aset k v rest := by
  simp [aset, hp]

theorem aremove_key_hit {α : Type} (k : Nat) (p : Nat × α) (rest : List (Nat × α))
    (hp : p.1 = k) : aremove k (p :: rest) = aremove k rest := by
  simp [aremove, hp]

theorem aremove_key_miss {α : Type} (k : Nat) (p : Nat × α) (rest : List (Nat × α))
    (hp : p.1 ≠ k) : aremove k (p :: rest) = p :: aremove k rest := by
  simp [aremove, hp]

@[simp] theorem alookup_aset_self {α : Type} (k : Nat) (v : α) (l : List (Nat × α)) :
    alookup k (aset k v l) = some v := by
  induction l with
  | nil => simp [aset, alookup]
  | cons p rest ih =>
    by_cases hp : p.1 = k
    · rw [aset_key_hit k v p rest hp, alookup, if_pos rfl]
    · rw [aset_key_miss k v p rest hp, alookup, if_neg hp, ih]

theorem alookup_aset_ne {α : Type} {k k' : Nat} (v : α) (l : List (Nat × α))
    (h : k' ≠ k) : alookup k' (aset k v l) = alookup k' l := by
  have hk : ¬(k = k') := fun hh => h hh.symm
  induction l with
  | nil => simp [aset, alookup, hk]
  | cons p rest ih =>
    by_cases hp : p.1 = k
    · have hpk' : ¬(p.1 = k') := by rw [hp]; exact hk
      rw [aset_key_hit k v p rest hp, alookup, if_neg hk, alookup, if_neg hpk']
    · rw [aset_key_miss k v p rest hp, alookup, alookup]
      by_cases hp' : p.1 = k'
      · rw [if_pos hp', if_pos hp']
      · rw [if_neg hp', if_neg hp', ih]

@[simp] theorem alookup_aremove_self {α : Type} (k : Nat) (l : List (Nat × α)) :
    alookup k (aremove k l) = none := by
  induction l with
  | nil => simp [aremove, alookup]
  | cons p rest ih =>
    by_cases hp : p.1 = k
    · rw [aremove_key_hit k p rest hp, ih]
    · rw [aremove_key_miss k p rest hp, alookup, if_neg hp, ih]

theorem alookup_aremove_ne {α : Type} {k k' : Nat} (l : List (Nat × α))
    (h : k' ≠ k) : alookup k' (aremove k l) = alookup k' l := by
  induction l with
  | nil => simp [aremove]
  | cons p rest ih =>
    by_cases hp : p.1 = k
    · have hpk' : ¬(p.1 = k') := by rw [hp]; exact fun hh => h hh.symm
      rw [aremove_key_hit k p rest hp, ih, alookup, if_neg hpk']
    · rw [aremove_key_miss k p rest hp, alookup, alookup]
      by_cases hp' : p.1 = k'
      · rw [if_pos hp', if_pos hp']
      · rw [if_neg hp', if_neg hp', ih]

theorem alookup_mem {α : Type} {k : Nat} {v : α} {l : List (Nat × α)}
    (h : alookup k l = some v) : (k, v) ∈ l := by
  induction l with
  | nil => simp [alookup] at h
  | cons p rest ih =>
    by_cases hp : p.1 = k
    · rw [alookup, if_pos hp] at h
      obtain ⟨a, b⟩ := p
      cases hp
      cases Option.some.inj h
      exact List.mem_cons_self _ _
    · rw [alookup, if_neg hp] at h
      exact List.mem_cons_of_mem _ (ih h)

theorem mem_alookup {α : Type} {k : Nat} {v : α} {l : List (Nat × α)}
    (hnd : (l.map Prod.fst).Nodup) (h : (k, v) ∈ l) : alookup k l = some v := by
  induction l with
  | nil => simp at h
  | cons p rest ih =>
    rw [List.map_cons, List.nodup_cons] at hnd
    rcases List.mem_cons.mp h with h | h
    · rw [← h, alookup, if_pos rfl]
    · by_cases hp : p.1 = k
      · exfalso
        apply hnd.1
        rw [hp]
        exact List.mem_map_of_mem Prod.fst h
      · rw [alookup, if_neg hp]
        exact ih hnd.2 h

theorem alookup_eq_none {α : Type} {k : Nat} {l : List (Nat × α)} :
    alookup k l = none ↔ k ∉ l.map Prod.fst := by
  induction l with
  | nil => simp [alookup]
  | cons p rest ih =>
    by_cases hp : p.1 = k
    · rw [alookup, if_pos hp, List.map_cons]
      simp [hp]
    · rw [alookup, if_neg hp, List.map_cons, List.mem_cons, ih]
      constructor
      · intro hk hor
        rcases hor with hh | hh
        · exact hp hh.symm
        · exact hk hh
      · intro hh hk
        exact hh (Or.inr hk)

theorem mem_aremove_iff {α : Type} {k : Nat} {p : Nat × α} {l : List (Nat × α)} :
    p ∈ aremove k l ↔ p ∈ l ∧ p.1 ≠ k := by
  induction l with
  | nil => simp [aremove]
  | cons q rest ih =>
    by_cases hq : q.1 = k
    · rw [aremove_key_hit k q rest hq, ih]
      constructor
      · rintro ⟨h1, h2⟩
        exact ⟨List.mem_cons_of_mem _ h1, h2⟩
      · rintro ⟨h1, h2⟩
        rcases List.mem_cons.mp h1 with h | h
        · exact absurd (by rw [h]; exact hq) h2
        · exact ⟨h, h2⟩
    · rw [aremove_key_miss k q rest hq]
      constructor
      · intro h
        rcases List.mem_cons.mp h with h | h
        · refine ⟨by rw [h]; exact List.mem_cons_self _ _, by rw [h]; exact hq⟩
        · obtain ⟨h1, h2⟩ := ih.mp h
          exact ⟨List.mem_cons_of_mem _ h1, h2⟩
      · rintro ⟨h1, h2⟩
        rcases List.mem_cons.mp h1 with h | h
        · rw [h]
          exact List.mem_cons_self _ _
        · exact List.mem_cons_of_mem _ (ih.mpr ⟨h, h2⟩)

theorem mem_aset {α : Type} {k : Nat} {v : α} {p : Nat × α} {l : List (Nat × α)}
    (h : p ∈ aset k v l) : p = (k, v) ∨ p ∈ l := by
  induction l with
  | nil => exact Or.inl (by simpa [aset] using h)
  | cons q rest ih =>
    by_cases hq : q.1 = k
    · rw [aset_key_hit k v q rest hq] at h
      rcases List.mem_cons.mp h with h | h
      · exact Or.inl h
      · exact Or.inr (List.mem_cons_of_mem _ h)
    · rw [aset_key_miss k v q rest hq] at h
      rcases List.mem_cons.mp h with h | h
      · exact Or.inr (by rw [h]; exact List.mem_cons_self _ _)
      · rcases ih h with h | h
        · exact Or.inl h
        · exact Or.inr (List.mem_cons_of_mem _ h)

theorem mem_aset_of_mem {α : Type} {k : Nat} (v : α) {p : Nat × α} {l : List (Nat × α)}
    (h : p ∈ l) (hne : p.1 ≠ k) : p ∈ aset k v l := by
  induction l with
  | nil => simp at h
  | cons q rest ih =>
    by_cases hq : q.1 = k
    · rw [aset_key_hit k v q rest hq]
      rcases List.mem_cons.mp h with h | h
      · exact absurd (by rw [h]; exact hq) hne
      · exact List.mem_cons_of_mem _ h
    · rw [aset_key_miss k v q rest hq]
      rcases List.mem_cons.mp h with h | h
      · rw [h]
        exact List.mem_cons_self _ _
      · exact List.mem_cons_of_mem _ (ih h)

theorem keys_aremove_sublist {α : Type} (k : Nat) (l : List (Nat × α)) :
    ((aremove k l).map Prod.fst).Sublist (l.map Prod.fst) := by
  induction l with
  | nil => simp [aremove]
  | cons p rest ih =>
    by_cases hp : p.1 = k
    · rw [aremove_key_hit k p rest hp, List.map_cons]
      exact ih.cons p.1
    · rw [aremove_key_miss k p rest hp, List.map_cons, List.map_cons]
      exact ih.cons₂ p.1

theorem nodup_keys_aremove {α : Type} (k : Nat) {l : List (Nat × α)}
    (h : (l.map Prod.fst).Nodup) : ((aremove k l).map Prod.fst).Nodup :=
  (keys_aremove_sublist k l).nodup h

theorem nodup_keys_aset {α : Type} (k : Nat) (v : α) {l : List (Nat × α)}
    (h : (l.map Prod.fst).Nodup) : ((aset k v l).map Prod.fst).Nodup := by
  induction l with
  | nil => simp [aset]
  | cons p rest ih =>
    rw [List.map_cons, List.nodup_cons] at h
    by_cases hp : p.1 = k
    · rw [aset_key_hit k v p rest hp, List.map_cons, List.nodup_cons]
      exact ⟨by rw [← hp]; exact h.1, h.2⟩
    · rw [aset_key_miss k v p rest hp, List.map_cons, List.nodup_cons]
      refine ⟨fun hmem => ?_, ih h.2⟩
      rcases List.mem_map.mp hmem with ⟨q, hq, hq1⟩
      rcases mem_aset hq with he | he
      · exact hp (by rw [← hq1, he])
      · exact h.1 (hq1 ▸ List.mem_map_of_mem Prod.fst he)

theorem mem_aset_nodup {α : Type} {k : Nat} {v : α} {q : Nat × α} {l : List (Nat × α)}
    (hnd : (l.map Prod.fst).Nodup) (h : q ∈ aset k v l) :
    q = (k, v) ∨ (q ∈ l ∧ q.1 ≠ k) := by
  induction l with
  | nil => exact Or.inl (by simpa [aset] using h)
  | cons p rest ih =>
    rw [List.map_cons, List.nodup_cons] at hnd
    by_cases hp : p.1 = k
    · rw [aset_key_hit k v p rest hp] at h
      rcases List.mem_cons.mp h with h | h
      · exact Or.inl h
      · refine Or.inr ⟨List.mem_cons_of_mem _ h, fun hk => ?_⟩
        exact hnd.1 (by rw [hp, ← hk]; exact List.mem_map_of_mem Prod.fst h)
    · rw [aset_key_miss k v p rest hp] at h
      rcases List.mem_cons.mp h with h | h
      · exact Or.inr ⟨by rw [h]; exact List.mem_cons_self _ _, by rw [h]; exact hp⟩
      · rcases ih hnd.2 h with h | h
        · exact Or.inl h
        · exact Or.inr ⟨List.mem_cons_of_mem _ h.1, h.2⟩

theorem wf_cu_keys {st : ServerState} (h : wf st = true) :
    (st.connectedUsers.map Prod.fst).Nodup := by
  simp [wf, Bool.and_eq_true] at h
  exact (nodupB_iff _).mp h.1.1.1

theorem wf_us_keys {st : ServerState} (h : wf st = true) :
    (st.userSockets.map Prod.fst).Nodup := by
  simp [wf, Bool.and_eq_true] at h
  exact (nodupB_iff _).mp h.1.1.2

theorem wf_cu_us {st : ServerState} (h : wf st = true) {sid : Nat} {info : ConnInfo}
    (hm : (sid, info) ∈ st.connectedUsers) :
    ∃ s, alookup info.userId st.userSockets = some s ∧ sid ∈ s := by
  simp only [wf, Bool.and_eq_true, List.all_eq_true] at h
  have := h.1.2 _ hm
  revert this
  cases hl : alookup info.userId st.userSockets with
  | none => intro hfalse; simp at hfalse
  | some s =>
    intro hmem
    exact ⟨s, rfl, by simpa using hmem⟩

theorem wf_us_cu {st : ServerState} (h : wf st = true) {uid : Nat} {s : List Nat}
    (hm : (uid, s) ∈ st.userSockets) :
    s ≠ [] ∧ s.Nodup ∧
      ∀ sid ∈ s, ∃ info, alookup sid st.connectedUsers = some info ∧ info.userId = uid := by
  simp only [wf, Bool.and_eq_true, List.all_eq_true] at h
  have hq := h.2 _ hm
  refine ⟨?_, (nodupB_iff _).mp hq.1.2, ?_⟩
  · intro hnil
    rw [hnil] at hq
    simp at hq
  · intro sid hsid
    have := hq.2 sid hsid
    revert this
    cases hl : alookup sid st.connectedUsers with
    | none => intro hfalse; simp at hfalse
    | some info =>
      intro heq
      exact ⟨info, rfl, by simpa using heq⟩

/-- `alookup` form of `wf_cu_us`. -/
theorem wf_lookup_cu_us {st : ServerState} (h : wf st = true) {sid : Nat} {info : ConnInfo}
    (hl : alookup sid st.connectedUsers = some info) :
    ∃ s, alookup info.userId st.userSockets = some s ∧ sid ∈ s :=
  wf_cu_us h (alookup_mem hl)

/-- `alookup` form of `wf_us_cu`. -/
theorem wf_lookup_us_cu {st : ServerState} (h : wf st = true) {uid : Nat} {s : List Nat}
    (hl : alookup uid st.userSockets = some s) :
    s ≠ [] ∧ s.Nodup ∧
      ∀ sid ∈ s, ∃ info, alookup sid st.connectedUsers = some info ∧ info.userId = uid :=
  wf_us_cu h (alookup_mem hl)

theorem countOffline_append (u : Nat) (l1 l2 : List Emit) :
    countOffline u (l1 ++ l2) = countOffline u l1 + countOffline u l2 := by
  simp [countOffline, List.filter_append]

theorem countOffline_typing_map (u uid sid : Nat) (l : List (Nat × List Nat)) :
    countOffline u (l.map
      (fun p => Emit.toRoomExcept p.1 sid (Event.user_typing uid p.1 false))) = 0 := by
  induction l with
  | nil => rfl
  | cons p rest ih =>
    simpa [countOffline, List.filter_cons, isOfflineFor] using ih

/-- The `disconnect` handler emits `user_offline` for `u` exactly once when it
removes `u`'s last remaining connection, and never otherwise. -/
theorem countOffline_disconnect (st : ServerState) (u sid : Nat) :
    countOffline u (handleDisconnect st sid).2 = (if lastConnB st u sid then 1 else 0) := by
  unfold handleDisconnect lastConnB
  cases hcu : alookup sid st.connectedUsers with
  | none => simp [countOffline]
  | some info =>
    cases hus : alookup info.userId st.userSockets with
    | none =>
      simp only [hus]
      rw [countOffline_append, countOffline_typing_map]
      simp [countOffline]
    | some s =>
      simp only [hus]
      by_cases he : (s.erase sid).isEmpty = true
      · rw [if_pos he, countOffline_append, countOffline_typing_map]
        by_cases hu : info.userId = u
        · simp [countOffline, List.filter_cons, isOfflineFor, hu, he]
        · simp [countOffline, List.filter_cons, isOfflineFor, hu, he]
      · rw [if_neg he, countOffline_append, countOffline_typing_map]
        rw [Bool.not_eq_true] at he
        simp [countOffline, he]

theorem wf_intro {st : ServerState}
    (h1 : (st.connectedUsers.map Prod.fst).Nodup)
    (h2 : (st.userSockets.map Prod.fst).Nodup)
    (h3 : ∀ p ∈ st.connectedUsers, ∃ s, alookup p.2.userId st.userSockets = some s ∧ p.1 ∈ s)
    (h4 : ∀ q ∈ st.userSockets, q.2 ≠ [] ∧ q.2.Nodup ∧
        ∀ sid ∈ q.2, ∃ info, alookup sid st.connectedUsers = some info ∧ info.userId = q.1) :
    wf st = true := by
  simp only [wf, Bool.and_eq_true, List.all_eq_true]
  refine ⟨⟨⟨(nodupB_iff _).mpr h1, (nodupB_iff _).mpr h2⟩, ?_⟩, ?_⟩
  · intro p hp
    obtain ⟨s, hs, hmem⟩ := h3 p hp
    rw [hs]
    simpa using hmem
  · intro q hq
    obtain ⟨hne, hnd, hmem⟩ := h4 q hq
    refine ⟨⟨?_, (nodupB_iff _).mpr hnd⟩, ?_⟩
    · simpa using hne
    · intro sid hsid
      obtain ⟨info, hi, hu⟩ := hmem sid hsid
      rw [hi]
      simpa using hu

/-- The `disconnect` handler preserves consistency of the presence maps. -/
theorem wf_disconnect {st : ServerState} (h : wf st = true) (sid : Nat) :
    wf (handleDisconnect st sid).1 = true := by
  unfold handleDisconnect
  cases hcu : alookup sid st.connectedUsers with
  | none =>
    exact wf_intro (wf_cu_keys h) (wf_us_keys h)
      (fun p hp => wf_cu_us h hp) (fun q hq => wf_us_cu h hq)
  | some info =>
    cases hus : alookup info.userId st.userSockets with
    | none =>
      obtain ⟨s0, hs0, hsid0⟩ := wf_lookup_cu_us h hcu
      rw [hus] at hs0
      cases hs0
    | some s =>
      obtain ⟨hsne, hsnd, hscu⟩ := wf_lookup_us_cu h hus
      simp only [hus]
      by_cases he : (s.erase sid).isEmpty = true
      · rw [if_pos he]
        have hserase : s.erase sid = [] := by simpa using he
        apply wf_intro
        · exact nodup_keys_aremove _ (wf_cu_keys h)
        · exact nodup_keys_aremove _ (wf_us_keys h)
        · intro p hp
          obtain ⟨hpcu, hpne⟩ := mem_aremove_iff.mp hp
          obtain ⟨t, ht, hpt⟩ := wf_cu_us h hpcu
          by_cases hpu : p.2.userId = info.userId
          · exfalso
            rw [hpu, hus] at ht
            cases Option.some.inj ht
            have hmem : p.1 ∈ s.erase sid := (List.Nodup.mem_erase_iff hsnd).mpr ⟨hpne, hpt⟩
            rw [hserase] at hmem
            simp at hmem
          · refine ⟨t, ?_, hpt⟩
            rw [alookup_aremove_ne _ hpu]
            exact ht
        · intro q hq
          obtain ⟨hqus, hqne⟩ := mem_aremove_iff.mp hq
          obtain ⟨hne, hnd, hmem⟩ := wf_us_cu h hqus
          refine ⟨hne, hnd, fun sid' hsid' => ?_⟩
          obtain ⟨info', hi', hu'⟩ := hmem sid' hsid'
          have hsidne : sid' ≠ sid := by
            intro hEq
            rw [hEq, hcu] at hi'
            cases Option.some.inj hi'
            exact hqne hu'.symm
          refine ⟨info', ?_, hu'⟩
          rw [alookup_aremove_ne _ hsidne]
          exact hi'
      · rw [if_neg he]
        have hserase : s.erase sid ≠ [] := by
          intro hnil
          rw [hnil] at he
          simp at he
        apply wf_intro
        · exact nodup_keys_aremove _ (wf_cu_keys h)
        · exact nodup_keys_aset _ _ (wf_us_keys h)
        · intro p hp
          obtain ⟨hpcu, hpne⟩ := mem_aremove_iff.mp hp
          obtain ⟨t, ht, hpt⟩ := wf_cu_us h hpcu
          by_cases hpu : p.2.userId = info.userId
          · rw [hpu, hus] at ht
            cases Option.some.inj ht
            rw [hpu]
            exact ⟨s.erase sid, alookup_aset_self _ _ _,
              (List.Nodup.mem_erase_iff hsnd).mpr ⟨hpne, hpt⟩⟩
          · refine ⟨t, ?_, hpt⟩
            rw [alookup_aset_ne _ _ hpu]
            exact ht
        · intro q hq
          rcases mem_aset_nodup (wf_us_keys h) hq with hq' | ⟨hqus, hqne⟩
          · rw [hq']
            refine ⟨hserase, hsnd.erase _, fun sid' hsid' => ?_⟩
            obtain ⟨hne', hmem'⟩ := (List.Nodup.mem_erase_iff hsnd).mp hsid'
            obtain ⟨info', hi', hu'⟩ := hscu sid' hmem'
            refine ⟨info', ?_, hu'⟩
            rw [alookup_aremove_ne _ hne']
            exact hi'
          · obtain ⟨hne, hnd, hmem⟩ := wf_us_cu h hqus
            refine ⟨hne, hnd, fun sid' hsid' => ?_⟩
            obtain ⟨info', hi', hu'⟩ := hmem sid' hsid'
            have hsidne : sid' ≠ sid := by
              intro hEq
              rw [hEq, hcu] at hi'
              cases Option.some.inj hi'
              exact hqne hu'.symm
            refine ⟨info', ?_, hu'⟩
            rw [alookup_aremove_ne _ hsidne]
            exact hi'

/-- A connection with a fresh socket id preserves consistency of the presence
maps. -/
theorem wf_connect {st : ServerState} (h : wf st = true) {sid : Nat} (info : ConnInfo)
    (hfresh : alookup sid st.connectedUsers = none) :
    wf (handleConnection st sid info).1 = true := by
  unfold handleConnection
  have hnotin : ∀ s, alookup info.userId st.userSockets = some s → sid ∉ s := by
    intro s hs hmem
    obtain ⟨-, -, hscu⟩ := wf_lookup_us_cu h hs
    obtain ⟨info', hcu, -⟩ := hscu sid hmem
    rw [hfresh] at hcu
    cases hcu
  apply wf_intro
  · exact nodup_keys_aset _ _ (wf_cu_keys h)
  · exact nodup_keys_aset _ _ (wf_us_keys h)
  · intro p hp
    rcases mem_aset_nodup (wf_cu_keys h) hp with hpq | ⟨hpcu, hpne⟩
    · rw [hpq]
      refine ⟨_, alookup_aset_self _ _ _, ?_⟩
      by_cases hc : sid ∈ (alookup info.userId st.userSockets).getD []
      · rw [if_pos hc]
        exact hc
      · rw [if_neg hc]
        exact List.mem_append_right _ (List.mem_cons_self _ _)
    · obtain ⟨t, ht, hpt⟩ := wf_cu_us h hpcu
      by_cases hpu : p.2.userId = info.userId
      · rw [hpu]
        refine ⟨_, alookup_aset_self _ _ _, ?_⟩
        have hts : (alookup info.userId st.userSockets).getD [] = t := by
          rw [← hpu, ht]
          rfl
        rw [hts]
        by_cases hc : sid ∈ t
        · rw [if_pos hc]
          exact hpt
        · rw [if_neg hc]
          exact List.mem_append_left _ hpt
      · refine ⟨t, ?_, hpt⟩
        rw [alookup_aset_ne _ _ hpu]
        exact ht
  · intro q hq
    rcases mem_aset_nodup (wf_us_keys h) hq with hq' | ⟨hqus, hqne⟩
    · rw [hq']
      cases hus : alookup info.userId st.userSockets with
      | none =>
        simp only [Option.getD_none]
        refine ⟨by simp, by simp, ?_⟩
        intro sid' hsid'
        simp at hsid'
        rw [hsid']
        exact ⟨info, alookup_aset_self _ _ _, rfl⟩
      | some s =>
        have hsid : sid ∉ s := hnotin s hus
        obtain ⟨hne, hnd, hscu⟩ := wf_lookup_us_cu h hus
        simp only [Option.getD_some]
        rw [if_neg hsid]
        refine ⟨by simp, ?_, ?_⟩
        · exact List.Nodup.append hnd (List.nodup_singleton sid)
            (fun a ha hb => by rw [List.mem_singleton.mp hb] at ha; exact hsid ha)
        · intro sid' hsid'
          rcases List.mem_append.mp hsid' with hx | hx
          · obtain ⟨info', hcu', hu'⟩ := hscu sid' hx
            have hne' : sid' ≠ sid := fun hEq => hsid (hEq ▸ hx)
            refine ⟨info', ?_, hu'⟩
            rw [alookup_aset_ne _ _ hne']
            exact hcu'
          · rw [List.mem_singleton.mp hx]
            exact ⟨info, alookup_aset_self _ _ _, rfl⟩
    · obtain ⟨hne, hnd, hmem⟩ := wf_us_cu h hqus
      refine ⟨hne, hnd, fun sid' hsid' => ?_⟩
      obtain ⟨info', hi', hu'⟩ := hmem sid' hsid'
      have hne' : sid' ≠ sid := by
        intro hEq
        rw [hEq, hfresh] at hi'
        cases hi'
      refine ⟨info', ?_, hu'⟩
      rw [alookup_aset_ne _ _ hne']
      exact hi'

/-- After a disconnect that does not empty the user's socket set, the set has
lost exactly that socket. -/
theorem disconnect_userSockets_some {st : ServerState} {sid : Nat} {info : ConnInfo}
    {s : List Nat} (hcu : alookup sid st.connectedUsers = some info)
    (hus : alookup info.userId st.userSockets = some s)
    (hne : (s.erase sid).isEmpty = false) :
    alookup info.userId (handleDisconnect st sid).1.userSockets = some (s.erase sid) := by
  unfold handleDisconnect
  simp only [hcu, hus, hne]
  simp

/-- Closing all of a user's connections, in any order, emits `user_offline`
for that user exactly once. -/
theorem countOffline_runDiscs {u : Nat} {l : List Nat} :
    ∀ {st : ServerState} {s : List Nat}, wf st = true →
      alookup u st.userSockets = some s → l.Perm s →
      countOffline u (runDiscs st l).2 = 1 := by
  induction l with
  | nil =>
    intro st s h hus hperm
    have hnil : s = [] := hperm.symm.eq_nil
    obtain ⟨hne, -, -⟩ := wf_lookup_us_cu h hus
    exact absurd hnil hne
  | cons a rest ih =>
    intro st s h hus hperm
    obtain ⟨hmem, hrest⟩ := List.cons_perm_iff_perm_erase.mp hperm
    obtain ⟨hne, hnd, hscu⟩ := wf_lookup_us_cu h hus
    obtain ⟨info, hcu, huid⟩ := hscu a hmem
    have hstep : countOffline u (handleDisconnect st a).2
        = if lastConnB st u a then 1 else 0 := countOffline_disconnect st u a
    have hrun : (runDiscs st (a :: rest)).2
        = (handleDisconnect st a).2 ++ (runDiscs (handleDisconnect st a).1 rest).2 := rfl
    rw [hrun, countOffline_append, hstep]
    by_cases he : (s.erase a).isEmpty = true
    · have hlast : lastConnB st u a = true := by
        simp [lastConnB, hcu, huid, hus, he]
      have hrestnil : rest = [] := by
        have : s.erase a = [] := by simpa using he
        exact (this ▸ hrest).eq_nil
      rw [hlast, hrestnil]
      simp [runDiscs, countOffline]
    · have hne' : (s.erase a).isEmpty = false := by
        cases hh : (s.erase a).isEmpty
        · rfl
        · exact absurd hh he
      have hlast : lastConnB st u a = false := by
        simp [lastConnB, hcu, huid, hus, hne']
      have hus' : alookup u (handleDisconnect st a).1.userSockets = some (s.erase a) := by
        have := disconnect_userSockets_some hcu (huid ▸ hus) hne'
        rwa [huid] at this
      rw [hlast, ih (wf_disconnect h a) hus' hrest]
      simp

/-- `u` is online in the code's sense (`userSockets.has(u)`) iff some live
connection is bound to `u`. -/
theorem online_iff_active {st : ServerState} (h : wf st = true) (u : Nat) :
    (alookup u st.userSockets).isSome = true ↔
      ∃ p ∈ st.connectedUsers, p.2.userId = u := by
  constructor
  · intro hs
    cases hl : alookup u st.userSockets with
    | none => rw [hl] at hs; cases hs
    | some s =>
      obtain ⟨hne, -, hscu⟩ := wf_lookup_us_cu h hl
      obtain ⟨sid, hsid⟩ := List.exists_mem_of_ne_nil s hne
      obtain ⟨info, hcu, huid⟩ := hscu sid hsid
      exact ⟨(sid, info), alookup_mem hcu, huid⟩
  · rintro ⟨p, hp, hu⟩
    obtain ⟨s, hs, -⟩ := wf_cu_us h hp
    rw [hu] at hs
    rw [hs]
    rfl

theorem countFor_map_snd (l : List (Nat × ConnInfo)) (u : Nat) :
    countFor (l.map Prod.snd) u
      = ((l.filter (fun p => p.2.userId == u)).map Prod.fst).length := by
  induction l with
  | nil => rfl
  | cons p rest ih =>
    cases hp : (p.2.userId == u) with
    | true =>
      simp only [countFor, List.map_cons, List.filter_cons, hp, if_pos rfl] at ih ⊢
      simp [ih]
    | false =>
      simp only [countFor, List.map_cons, List.filter_cons, hp] at ih ⊢
      simp [ih]

/-- In a consistent state the per-connection snapshot mentions user `u` once
per open socket of `u`. -/
theorem snapshot_count_eq_sockets {st : ServerState} {u : Nat} {s : List Nat}
    (h : wf st = true) (hus : alookup u st.userSockets = some s) :
    countFor (onlineSnapshot st) u = s.length := by
  rw [onlineSnapshot, countFor_map_snd]
  have hnd1 : ((st.connectedUsers.filter (fun p => p.2.userId == u)).map Prod.fst).Nodup :=
    ((List.filter_sublist _).map Prod.fst).nodup (wf_cu_keys h)
  have hnd2 : s.Nodup := (wf_lookup_us_cu h hus).2.1
  have hK : ((st.connectedUsers.filter (fun p => p.2.userId == u)).map Prod.fst).Perm s := by
    apply (List.perm_ext_iff_of_nodup hnd1 hnd2).mpr
    intro x
    constructor
    · intro hx
      rcases List.mem_map.mp hx with ⟨p, hpf, hpx⟩
      rcases List.mem_filter.mp hpf with ⟨hpcu, hpu⟩
      obtain ⟨t, ht, hpt⟩ := wf_cu_us h hpcu
      have hpu' : p.2.userId = u := by simpa using hpu
      rw [hpu', hus] at ht
      cases Option.some.inj ht
      rw [← hpx]
      exact hpt
    · intro hx
      obtain ⟨-, -, hscu⟩ := wf_lookup_us_cu h hus
      obtain ⟨info, hcu, huid⟩ := hscu x hx
      exact List.mem_map.mpr ⟨(x, info),
        List.mem_filter.mpr ⟨alookup_mem hcu, by simpa using huid⟩, rfl⟩
  exact hK.length_eq

theorem countFor_cons (i : ConnInfo) (l : List ConnInfo) (u : Nat) :
    countFor (i :: l) u = (if i.userId == u then 1 else 0) + countFor l u := by
  cases h : (i.userId == u) with
  | true => simp [countFor, List.filter_cons, h, Nat.add_comm]
  | false => simp [countFor, List.filter_cons, h]

theorem countFor_getOnline_zero (cu : List (Nat × ConnInfo)) (u : Nat) :
    ∀ us : List (Nat × List Nat), u ∉ us.map Prod.fst →
      countFor (us.filterMap
        (fun q => (cu.find? (fun p => p.2.userId == q.1)).map Prod.snd)) u = 0 := by
  intro us
  induction us with
  | nil => intro _; rfl
  | cons q rest ih =>
    intro hu
    rw [List.map_cons] at hu
    have hqa : u ≠ q.1 := fun hh => hu (by rw [hh]; exact List.mem_cons_self _ _)
    have hur : u ∉ rest.map Prod.fst := fun hh => hu (List.mem_cons_of_mem _ hh)
    cases hf : cu.find? (fun p => p.2.userId == q.1) with
    | none =>
      simp only [List.filterMap_cons, hf, Option.map_none']
      exact ih hur
    | some pr =>
      have hiu : (pr.2.userId == u) = false := by
        have h2 : pr.2.userId = q.1 := by simpa using List.find?_some hf
        rw [h2, beq_eq_false_iff_ne]
        exact fun hh => hqa hh.symm
      simp only [List.filterMap_cons, hf, Option.map_some']
      rw [countFor_cons, hiu]
      simpa using ih hur

theorem countFor_getOnline_one (cu : List (Nat × ConnInfo)) (u : Nat) :
    ∀ us : List (Nat × List Nat), (us.map Prod.fst).Nodup →
      u ∈ us.map Prod.fst →
      (∃ p ∈ cu, p.2.userId = u) →
      countFor (us.filterMap
        (fun q => (cu.find? (fun p => p.2.userId == q.1)).map Prod.snd)) u = 1 := by
  intro us
  induction us with
  | nil =>
    intro _ hu _
    simp at hu
  | cons q rest ih =>
    intro hnd hu hex
    rw [List.map_cons, List.nodup_cons] at hnd
    rcases List.mem_cons.mp hu with hq | hq
    · obtain ⟨p, hpcu, hpu⟩ := hex
      cases hf : cu.find? (fun p => p.2.userId == q.1) with
      | none =>
        exfalso
        apply List.find?_eq_none.mp hf p hpcu
        rw [hpu, hq]
        exact beq_self_eq_true _
      | some pr =>
        have hiu : (pr.2.userId == u) = true := by
          have h2 : pr.2.userId = q.1 := by simpa using List.find?_some hf
          rw [h2, ← hq]
          exact beq_self_eq_true _
        have hzero := countFor_getOnline_zero cu u rest (by rw [← hq] at hnd; exact hnd.1)
        simp only [List.filterMap_cons, hf, Option.map_some']
        rw [countFor_cons, hiu]
        simpa using hzero
    · have hqa : q.1 ≠ u := fun hh => hnd.1 (by rw [hh]; exact hq)
      cases hf : cu.find? (fun p => p.2.userId == q.1) with
      | none =>
        simp only [List.filterMap_cons, hf, Option.map_none']
        exact ih hnd.2 hq hex
      | some pr =>
        have hiu : (pr.2.userId == u) = false := by
          have h2 : pr.2.userId = q.1 := by simpa using List.find?_some hf
          rw [h2, beq_eq_false_iff_ne]
          exact hqa
        simp only [List.filterMap_cons, hf, Option.map_some']
        rw [countFor_cons, hiu]
        simpa using ih hnd.2 hq hex

/-- **C1** Presence last-connection-wins: in every consistent state, (i) user
`u` is online (`userSockets.has(u)`) iff some live connection is bound to
`u`; (ii) a disconnect emits `user_offline` for `u` exactly once when it
removes `u`'s last remaining open connection and never otherwise; (iii)
closing all `N` of `u`'s connections, in any order, emits exactly one
`user_offline` for `u`, not `N`. -/
theorem C1_presence_last_connection_wins (st : ServerState) (u : Nat)
    (h : wf st = true) :
    ((alookup u st.userSockets).isSome = true ↔ ∃ p ∈ st.connectedUsers, p.2.userId = u) ∧
    (∀ sid, countOffline u (handleDisconnect st sid).2
        = if lastConnB st u sid then 1 else 0) ∧
    (∀ sid info, alookup sid st.connectedUsers = none →
        wf (handleConnection st sid info).1 = true ∧
        countOffline u (handleConnection st sid info).2 = 0) ∧
    (∀ sid, wf (handleDisconnect st sid).1 = true) ∧
    (∀ s l, alookup u st.userSockets = some s → l.Perm s →
        countOffline u (runDiscs st l).2 = 1) :=
  ⟨online_iff_active h u, fun sid => countOffline_disconnect st u sid,
   fun _ info hf => ⟨wf_connect h info hf, rfl⟩,
   fun sid => wf_disconnect h sid,
   fun _ _ hus hperm => countOffline_runDiscs h hus hperm⟩

/-- Witness for C1 at the concrete two-connection state: closing both of user
10's sockets (socket 2 first) emits exactly one `user_offline`. -/
theorem C1_witness :
    wf stDemo = true ∧ countOffline 10 (runDiscs stDemo [2, 1]).2 = 1 :=
  ⟨by decide,
   (C1_presence_last_connection_wins stDemo 10 (by decide)).2.2.2.2 [1, 2] [2, 1]
     (by decide) (by decide)⟩

/-- **C3 counterexample**: user 10 already has open connections in `stDemo`,
yet a further connect of user 10 (socket 4) still emits the `user_online`
broadcast — the code broadcasts on every connect, not only on the
empty-to-non-empty transition. -/
theorem C3_counterexample :
    (alookup 10 stDemo.userSockets).isSome = true ∧
    Emit.broadcastExcept 4 (Event.user_online 10) ∈ (handleConnection stDemo 4 infoA3).2 := by
  constructor
  · decide
  · exact List.mem_cons_self _ _

/-- **C3 (amended)**: the `user_online` broadcast is emitted on every connect
— unconditionally, as the first emission — including when the identity
already has other open connections; only the offline side is gated on the
socket-set transition. -/
theorem C3_online_broadcast_every_connect (st : ServerState) (sid : Nat) (info : ConnInfo) :
    (handleConnection st sid info).2.head?
      = some (Emit.broadcastExcept sid (Event.user_online info.userId)) := rfl

/-- **C9** Implicit: the per-connection `online_users` snapshot lists user `u`
once per open socket, while the `get_online_users` reply lists `u` exactly
once; with two or more simultaneous connections the two views differ. -/
theorem C9_online_views_disagree (st : ServerState) (u : Nat) (s : List Nat)
    (h : wf st = true) (hus : alookup u st.userSockets = some s) :
    countFor (onlineSnapshot st) u = s.length ∧
    countFor (getOnlineUsersList st) u = 1 ∧
    (2 ≤ s.length → onlineSnapshot st ≠ getOnlineUsersList st) := by
  have h1 := snapshot_count_eq_sockets h hus
  have hu : u ∈ st.userSockets.map Prod.fst := by
    by_contra hcon
    have hcon2 := alookup_eq_none.mpr hcon
    rw [hcon2] at hus
    cases hus
  have hex : ∃ p ∈ st.connectedUsers, p.2.userId = u := by
    obtain ⟨hne, -, hscu⟩ := wf_lookup_us_cu h hus
    obtain ⟨sid, hsid⟩ := List.exists_mem_of_ne_nil s hne
    obtain ⟨info, hcu, huid⟩ := hscu sid hsid
    exact ⟨(sid, info), alookup_mem hcu, huid⟩
  have h2 : countFor (getOnlineUsersList st) u = 1 :=
    countFor_getOnline_one st.connectedUsers u st.userSockets (wf_us_keys h) hu hex
  refine ⟨h1, h2, fun hlen hEq => ?_⟩
  rw [hEq, h2] at h1
  omega

/-- Witness for C9: in `stDemo` user 10 has two sockets, so the snapshot and
the deduplicated reply are different lists. -/
theorem C9_witness :
    wf stDemo = true ∧ onlineSnapshot stDemo ≠ getOnlineUsersList stDemo :=
  ⟨by decide,
   (C9_online_views_disagree stDemo 10 [1, 2] (by decide) (by decide)).2.2 (by decide)⟩

/-- The `send_message` trace always takes one of three shapes: a single error
to the sender, a failed persist followed by a `SERVER_ERROR` to the sender, or
a successful persist followed by the summary update and the room broadcast. -/
theorem sendTrace_cases (chats : ChatStore) (persistOk : Bool) (sid uid : Nat)
    (chatId : Option Nat) (mensaje : Option String) :
    (∃ e, handleSendMessage chats persistOk sid uid chatId mensaje
        = [Step.out (Emit.toSocket sid (Event.error e))]) ∨
    (∃ cid m, persistOk = false ∧
      handleSendMessage chats persistOk sid uid chatId mensaje
        = [Step.persist false cid uid m,
           Step.out (Emit.toSocket sid (Event.error ErrType.SERVER_ERROR))]) ∨
    (∃ cid m, persistOk = true ∧
      handleSendMessage chats persistOk sid uid chatId mensaje
        = [Step.persist true cid uid m,
           Step.updateSummary cid,
           Step.out (Emit.toRoom cid (Event.receive_message uid cid m))]) := by
  cases chatId with
  | none => exact Or.inl ⟨ErrType.INVALID_DATA, rfl⟩
  | some cid =>
    cases mensaje with
    | none => exact Or.inl ⟨ErrType.INVALID_DATA, rfl⟩
    | some m =>
      by_cases h0 : m.trim.length = 0
      · exact Or.inl ⟨ErrType.INVALID_DATA, by simp [handleSendMessage, h0]⟩
      · by_cases h1 : m.length > 1000
        · exact Or.inl ⟨ErrType.MESSAGE_TOO_LONG, by simp [handleSendMessage, h0, h1]⟩
        · cases hc : alookup cid chats with
          | none => exact Or.inl ⟨ErrType.CHAT_NOT_FOUND, by simp [handleSendMessage, h0, h1, hc]⟩
          | some parts =>
            by_cases hm : uid ∈ parts
            · cases hp : persistOk with
              | false =>
                exact Or.inr (Or.inl ⟨cid, m.trim, rfl,
                  by simp [handleSendMessage, h0, h1, hc, hm]⟩)
              | true =>
                exact Or.inr (Or.inr ⟨cid, m.trim, rfl,
                  by simp [handleSendMessage, h0, h1, hc, hm]⟩)
            · exact Or.inl ⟨ErrType.ACCESS_DENIED, by simp [handleSendMessage, h0, h1, hc, hm]⟩

/-- **C2** No broadcast before persistence: when `Message.create` fails the
trace contains no `receive_message` emission on any channel and every
emission goes to the sending socket only; and in every trace, any
`receive_message` emission is preceded by a successful persistence step. -/
theorem C2_no_broadcast_before_persistence (chats : ChatStore) (persistOk : Bool)
    (sid uid : Nat) (chatId : Option Nat) (mensaje : Option String) :
    (persistOk = false →
      (handleSendMessage chats persistOk sid uid chatId mensaje).all
        (fun s => (!stepHasReceive s) && stepOnlyToSocket sid s) = true) ∧
    (∀ i, stepHasReceive
        ((handleSendMessage chats persistOk sid uid chatId mensaje).getD i
          (Step.updateSummary 0)) = true →
      ∃ j, j < i ∧ stepIsPersistOk
        ((handleSendMessage chats persistOk sid uid chatId mensaje).getD j
          (Step.updateSummary 0)) = true) := by
  rcases sendTrace_cases chats persistOk sid uid chatId mensaje with
    ⟨e, htr⟩ | ⟨cid, m, hok, htr⟩ | ⟨cid, m, hok, htr⟩
  · rw [htr]
    constructor
    · intro _
      simp [stepHasReceive, stepOnlyToSocket, isReceiveEvent, emitEvent]
    · intro i hi
      exfalso
      rcases i with _ | i
      · simp [List.getD, stepHasReceive, isReceiveEvent, emitEvent] at hi
      · simp [List.getD, stepHasReceive] at hi
  · rw [htr]
    constructor
    · intro _
      simp [stepHasReceive, stepOnlyToSocket, isReceiveEvent, emitEvent]
    · intro i hi
      exfalso
      rcases i with _ | _ | i
      · simp [List.getD, stepHasReceive] at hi
      · simp [List.getD, stepHasReceive, isReceiveEvent, emitEvent] at hi
      · simp [List.getD, stepHasReceive] at hi
  · rw [htr]
    constructor
    · intro hfalse
      rw [hok] at hfalse
      cases hfalse
    · intro i hi
      rcases i with _ | _ | _ | i
      · simp [List.getD, stepHasReceive] at hi
      · simp [List.getD, stepHasReceive] at hi
      · exact ⟨0, by omega, by simp [List.getD, stepIsPersistOk]⟩
      · simp [List.getD, stepHasReceive] at hi

/-- Witness for C2 at a concrete failing persist: the trace fans nothing out
and speaks only to the sender. -/
theorem C2_witness :
    (handleSendMessage demoChats false 1 10 (some 5) (some "hola")).all
      (fun s => (!stepHasReceive s) && stepOnlyToSocket 1 s) = true :=
  (C2_no_broadcast_before_persistence demoChats false 1 10 (some 5) (some "hola")).1 rfl

/-- **C5** Join raises-iff with fresh authorization: a join fails with
`CHAT_NOT_FOUND` when the chat is absent from the store consulted on this
join and with `ACCESS_DENIED` when the identity is not among its
participants; the check reads the store passed to each call, so after the
identity is removed from the persisted membership a second join fails with
`ACCESS_DENIED` even though the first succeeded. -/
theorem C5_join_fresh_authorization (st : ServerState) (sid uid cid : Nat) :
    (∀ chats : ChatStore, alookup cid chats = none →
      handleJoinChat chats st sid uid (some cid)
        = (st, [Emit.toSocket sid (Event.error ErrType.CHAT_NOT_FOUND)])) ∧
    (∀ (chats : ChatStore) (parts : List Nat), alookup cid chats = some parts →
      uid ∉ parts →
      handleJoinChat chats st sid uid (some cid)
        = (st, [Emit.toSocket sid (Event.error ErrType.ACCESS_DENIED)])) ∧
    (∀ (chats1 chats2 : ChatStore) (parts1 parts2 : List Nat),
      alookup cid chats1 = some parts1 → uid ∈ parts1 →
      alookup cid chats2 = some parts2 → uid ∉ parts2 →
      (handleJoinChat chats1 st sid uid (some cid)).2
          = [Emit.toRoomExcept cid sid (Event.user_joined_chat uid cid),
             Emit.toSocket sid (Event.chat_joined cid)] ∧
      handleJoinChat chats2 (handleJoinChat chats1 st sid uid (some cid)).1 sid uid (some cid)
          = ((handleJoinChat chats1 st sid uid (some cid)).1,
             [Emit.toSocket sid (Event.error ErrType.ACCESS_DENIED)])) := by
  refine ⟨?_, ?_, ?_⟩
  · intro chats hl
    simp [handleJoinChat, hl]
  · intro chats parts hl hmem
    simp [handleJoinChat, hl, hmem]
  · intro chats1 chats2 parts1 parts2 h1 hm1 h2 hm2
    constructor
    · simp [handleJoinChat, h1, hm1]
    · simp [handleJoinChat, h2, hm2]

/-- Witness for C5: user 10 joins chat 5 while a participant, is removed from
the persisted membership, and the repeated join is denied. -/
theorem C5_witness :
    alookup 5 demoChats = some [10, 20] ∧ alookup 5 demoChats2 = some [20] ∧
    handleJoinChat demoChats2 (handleJoinChat demoChats stDemo 1 10 (some 5)).1 1 10 (some 5)
      = ((handleJoinChat demoChats stDemo 1 10 (some 5)).1,
         [Emit.toSocket 1 (Event.error ErrType.ACCESS_DENIED)]) := by
  refine ⟨by decide, by decide, ?_⟩
  exact ((C5_join_fresh_authorization stDemo 1 10 5).2.2 demoChats demoChats2 [10, 20] [20]
    (by decide) (by decide) (by decide) (by decide)).2

/-- **C10** Missing-input handling is inconsistent: `typing`, `stop_typing`
and `leave_chat` with a missing (falsy) `chat_id` return silently — no event,
no state change — while `join_chat` and `send_message` with missing required
fields emit an `INVALID_DATA` error to the offending connection. -/
theorem C10_missing_input_inconsistency (st : ServerState) (sid uid : Nat) (b : Bool)
    (now : Nat) (chats : ChatStore) (persistOk : Bool) (m : String) (cid : Nat) :
    handleTyping st sid uid none b now = (st, []) ∧
    handleStopTyping st sid uid none = (st, []) ∧
    handleLeaveChat st sid uid none = (st, []) ∧
    handleJoinChat chats st sid uid none
      = (st, [Emit.toSocket sid (Event.error ErrType.INVALID_DATA)]) ∧
    handleSendMessage chats persistOk sid uid none (some m)
      = [Step.out (Emit.toSocket sid (Event.error ErrType.INVALID_DATA))] ∧
    handleSendMessage chats persistOk sid uid (some cid) none
      = [Step.out (Emit.toSocket sid (Event.error ErrType.INVALID_DATA))] :=
  ⟨rfl, rfl, rfl, rfl, rfl, rfl⟩

/-- `stop_typing` never touches the armed timeouts (server.js:408-426 contains
no `clearTimeout`). -/
theorem stopTyping_pendingTimers (st : ServerState) (sid uid : Nat) (chatId : Option Nat) :
    (handleStopTyping st sid uid chatId).1.pendingTimers = st.pendingTimers := by
  cases chatId with
  | none => rfl
  | some cid =>
    unfold handleStopTyping
    cases hc : alookup cid st.typingUsers with
    | none => rfl
    | some s => simp only [hc]

/-- `typing` with `isTyping = true` always appends a fresh timeout. -/
theorem typing_appends_timer (st : ServerState) (sid uid cid now : Nat) :
    (handleTyping st sid uid (some cid) true now).1.pendingTimers
      = st.pendingTimers ++ [⟨cid, uid, sid, now + 3000⟩] := rfl

/-- **C4 counterexample**: from `stDemo` (no timers armed), a `typing` start
followed by an explicit `stop_typing` leaves the 3-second timeout armed, and
when it expires it broadcasts a further `typing=false` — and two `typing`
starts leave two timeouts pending, so timeouts stack rather than re-arm and a
stop does not cancel. -/
theorem C4_counterexample :
    ((handleStopTyping (handleTyping stDemo 1 10 (some 7) true 0).1 1 10 (some 7)).1.pendingTimers
        = [⟨7, 10, 1, 3000⟩]) ∧
    ((fireTimer (handleStopTyping (handleTyping stDemo 1 10 (some 7) true 0).1 1 10 (some 7)).1
        ⟨7, 10, 1, 3000⟩).2
        = [Emit.toRoomExcept 7 1 (Event.user_typing 10 7 false)]) ∧
    ((handleTyping (handleTyping stDemo 1 10 (some 7) true 0).1 1 10 (some 7) true 100).1.pendingTimers.length
        = 2) := by
  refine ⟨?_, ?_, ?_⟩ <;> decide

/-- **C4 (amended)**: `startTyping` arms a 3-second timeout whose expiry
broadcasts exactly one `typing=false` to the room, and with a single arm and
no follow-up signal exactly one timeout is pending; but timeouts are never
cancelled or replaced — an explicit `stopTyping` leaves the pending timeout
armed (it will fire an additional `typing=false`), and a repeated
`startTyping` stacks a second timeout instead of re-arming. -/
theorem C4_typing_timer_never_cancelled (st : ServerState) (sid uid cid now : Nat)
    (h : st.pendingTimers = []) :
    ((handleTyping st sid uid (some cid) true now).1.pendingTimers
        = [⟨cid, uid, sid, now + 3000⟩]) ∧
    ((fireTimer (handleTyping st sid uid (some cid) true now).1 ⟨cid, uid, sid, now + 3000⟩).2
        = [Emit.toRoomExcept cid sid (Event.user_typing uid cid false)]) ∧
    ((handleStopTyping (handleTyping st sid uid (some cid) true now).1 sid uid (some cid)).1.pendingTimers
        = [⟨cid, uid, sid, now + 3000⟩]) ∧
    ((handleTyping (handleTyping st sid uid (some cid) true now).1 sid uid (some cid) true now).1.pendingTimers.length
        = 2) := by
  have h1 : (handleTyping st sid uid (some cid) true now).1.pendingTimers
      = [⟨cid, uid, sid, now + 3000⟩] := by
    rw [typing_appends_timer, h]
    rfl
  refine ⟨h1, ?_, ?_, ?_⟩
  · unfold fireTimer
    cases hfind : alookup cid (handleTyping st sid uid (some cid) true now).1.typingUsers with
    | none =>
      exfalso
      have : alookup cid (handleTyping st sid uid (some cid) true now).1.typingUsers
          = some _ := alookup_aset_self cid _ st.typingUsers
      rw [hfind] at this
      cases this
    | some s => rfl
  · rw [stopTyping_pendingTimers, h1]
  · rw [typing_appends_timer, h1]
    rfl

/-- Witness for C4 at `stDemo`, which has no timers armed. -/
theorem C4_witness :
    stDemo.pendingTimers = [] ∧
    (handleTyping stDemo 1 10 (some 7) true 0).1.pendingTimers = [⟨7, 10, 1, 3000⟩] :=
  ⟨rfl, (C4_typing_timer_never_cancelled stDemo 1 10 7 0 rfl).1⟩

/-- The second identical `leave_chat` does not change the registries further
(room and typing sets are duplicate-free, so erasing the same element twice
equals erasing it once). -/
theorem erase_map_idem (cid x : Nat) (l : List (Nat × List Nat))
    (hl : ∀ p ∈ l, p.2.Nodup) :
    (l.map (fun p => if p.1 = cid then (p.1, p.2.erase x) else p)).map
        (fun p => if p.1 = cid then (p.1, p.2.erase x) else p)
      = l.map (fun p => if p.1 = cid then (p.1, p.2.erase x) else p) := by
  induction l with
  | nil => rfl
  | cons p rest ih =>
    have hp := hl p (List.mem_cons_self _ _)
    have hrest := fun q hq => hl q (List.mem_cons_of_mem _ hq)
    simp only [List.map_cons]
    rw [ih hrest]
    by_cases hc : p.1 = cid
    · simp [hc, List.erase_of_not_mem (List.Nodup.not_mem_erase hp)]
    · simp [hc]

/-- **C7 counterexample**: socket 1 leaves room 7 twice in a row; the second
`leave_chat` broadcasts `user_left_chat` to the room again instead of being
a no-op with respect to emitted events. -/
theorem C7_counterexample :
    ((handleLeaveChat stDemo 1 10 (some 7)).2
        = [Emit.toRoomExcept 7 1 (Event.user_left_chat 10 7)]) ∧
    ((handleLeaveChat (handleLeaveChat stDemo 1 10 (some 7)).1 1 10 (some 7)).2
        = [Emit.toRoomExcept 7 1 (Event.user_left_chat 10 7)]) := by
  refine ⟨?_, ?_⟩ <;> decide

/-- **C7 (amended)**: `leave_chat` never fails — it emits no error event for
any input, and a repeated identical leave leaves the registries unchanged —
but it is not silent: every leave naming a room id broadcasts
`user_left_chat` to that room's remaining subscribers, so a second or
unfounded leave repeats the broadcast. -/
theorem C7_leave_never_fails_but_rebroadcasts (st : ServerState) (sid uid : Nat)
    (chatId : Option Nat)
    (hr : ∀ p ∈ st.rooms, p.2.Nodup) (ht : ∀ p ∈ st.typingUsers, p.2.Nodup) :
    ((handleLeaveChat st sid uid chatId).2.all (fun e => !isErrorEmit e) = true) ∧
    ((handleLeaveChat (handleLeaveChat st sid uid chatId).1 sid uid chatId).1
        = (handleLeaveChat st sid uid chatId).1) ∧
    (∀ cid, chatId = some cid →
      (handleLeaveChat (handleLeaveChat st sid uid chatId).1 sid uid chatId).2
        = [Emit.toRoomExcept cid sid (Event.user_left_chat uid cid)]) := by
  cases chatId with
  | none => exact ⟨rfl, rfl, fun cid h => by cases h⟩
  | some cid =>
    refine ⟨rfl, ?_, fun cid' h => by cases h; rfl⟩
    unfold handleLeaveChat
    simp only [ServerState.mk.injEq]
    refine ⟨trivial, trivial, ?_, ?_, trivial⟩
    · exact erase_map_idem cid uid st.typingUsers ht
    · exact erase_map_idem cid sid st.rooms hr

/-- Witness for C7: the concrete state `stDemo` has duplicate-free room and
typing sets, and the double leave fixes the state. -/
theorem C7_witness :
    (∀ p ∈ stDemo.rooms, p.2.Nodup) ∧
    (handleLeaveChat (handleLeaveChat stDemo 1 10 (some 7)).1 1 10 (some 7)).1
      = (handleLeaveChat stDemo 1 10 (some 7)).1 :=
  ⟨by decide,
   (C7_leave_never_fails_but_rebroadcasts stDemo 1 10 (some 7) (by decide) (by decide)).2.1⟩

/-- **C6 counterexample**: in `stDemo`, socket 3 (user 20) is subscribed to
room 7 together with socket 1; its disconnect emits `user_offline` (it was
user 20's last connection) but no `user_left_chat` for room 7 — the remaining
subscriber receives no "member left" broadcast. -/
theorem C6_counterexample :
    (alookup 7 stDemo.rooms = some [1, 3]) ∧
    ((handleDisconnect stDemo 3).2.all (fun e => !isLeftChatEmit e) = true) ∧
    (Emit.broadcastExcept 3 (Event.user_offline 20) ∈ (handleDisconnect stDemo 3).2) := by
  refine ⟨?_, ?_, ?_⟩ <;> decide

/-- **C6 (amended)**: on disconnect the socket is removed from every room's
subscriber set (Socket.IO's automatic teardown — no stale entries remain),
but the handler emits no `user_left_chat` broadcast at all: remaining
subscribers are not told the member left; only presence and typing events go
out. -/
theorem C6_disconnect_removes_without_member_left (st : ServerState) (sid : Nat)
    (hr : ∀ p ∈ st.rooms, p.2.Nodup) :
    ((handleDisconnect st sid).2.all (fun e => !isLeftChatEmit e) = true) ∧
    (∀ p ∈ (handleDisconnect st sid).1.rooms, sid ∉ p.2) := by
  constructor
  · unfold handleDisconnect
    cases hcu : alookup sid st.connectedUsers with
    | none => rfl
    | some info =>
      cases hus : alookup info.userId st.userSockets with
      | none =>
        simp only [hus, List.all_append, Bool.and_eq_true]
        constructor
        · rfl
        · simp only [List.all_eq_true]
          intro e he
          rcases List.mem_map.mp he with ⟨q, -, rfl⟩
          rfl
      | some s =>
        simp only [hus]
        by_cases he : (s.erase sid).isEmpty = true
        · rw [if_pos he]
          simp only [List.all_append, Bool.and_eq_true]
          constructor
          · rfl
          · simp only [List.all_eq_true]
            intro e he
            rcases List.mem_map.mp he with ⟨q, -, rfl⟩
            rfl
        · rw [if_neg he]
          simp only [List.all_append, Bool.and_eq_true]
          constructor
          · rfl
          · simp only [List.all_eq_true]
            intro e he
            rcases List.mem_map.mp he with ⟨q, -, rfl⟩
            rfl
  · intro p hp
    have hrooms : (handleDisconnect st sid).1.rooms
        = st.rooms.map (fun q => (q.1, q.2.erase sid)) := by
      unfold handleDisconnect
      cases hcu : alookup sid st.connectedUsers with
      | none => rfl
      | some info => rfl
    rw [hrooms] at hp
    rcases List.mem_map.mp hp with ⟨q, hq, hqp⟩
    rw [← hqp]
    exact List.Nodup.not_mem_erase (hr q hq)

/-- Witness for C6: duplicate-free rooms in `stDemo`; after socket 3's
disconnect it is gone from room 7's subscriber set. -/
theorem C6_witness :
    (∀ p ∈ stDemo.rooms, p.2.Nodup) ∧
    (∀ p ∈ (handleDisconnect stDemo 3).1.rooms, (3:Nat) ∉ p.2) :=
  ⟨by decide, (C6_disconnect_removes_without_member_left stDemo 3 (by decide)).2⟩

theorem insertByDateDesc_perm (m : MsgDoc) (l : List MsgDoc) :
    (insertByDateDesc m l).Perm (m :: l) := by
  induction l with
  | nil => exact List.Perm.refl _
  | cons x xs ih =>
    by_cases h : m.createdAt ≤ x.createdAt
    · rw [insertByDateDesc, if_pos h]
      exact (ih.cons x).trans (List.Perm.swap m x xs)
    · rw [insertByDateDesc, if_neg h]

theorem sortByDateDesc_perm (l : List MsgDoc) : (sortByDateDesc l).Perm l := by
  induction l with
  | nil => exact List.Perm.refl _
  | cons x xs ih => exact (insertByDateDesc_perm x _).trans (ih.cons x)

/-- **C8** Read-marking is a side effect of fetching: for an authorized
participant, `getChatMessages` succeeds and every message of the fetched page
that was not sent by the requester and does not already carry their read
marker is replaced in the persisted store by its `markAsRead` version — which
really differs from the original and carries a `(user, readAt)` marker — so
the fetch mutates persisted read-state and is not a pure query. -/
theorem C8_fetch_marks_read (store : SimpleStore) (uid cid page limit now : Nat)
    (parts : List Nat) (hchat : alookup cid store.chats = some parts)
    (hmem : uid ∈ parts) :
    ∃ msgs total,
      (getChatMessages store uid cid page limit now).1 = FetchResult.ok msgs total ∧
      ∀ m ∈ msgs, (m.sender == uid) = false →
        (m.readBy.any (fun r => r.1 == uid)) = false →
        ((uid, now) ∈ (markAsRead m uid now).readBy ∧
         markAsRead m uid now ≠ m ∧
         markAsRead m uid now ∈ (getChatMessages store uid cid page limit now).2.messages) := by
  unfold getChatMessages
  simp only [hchat]
  rw [if_pos hmem]
  refine ⟨_, _, rfl, ?_⟩
  intro m hm hs hr
  have hnotyet : ¬((m.readBy.any (fun r => r.1 == uid)) = true) := by
    rw [hr]
    exact Bool.false_ne_true
  refine ⟨?_, ?_, ?_⟩
  · rw [markAsRead, if_neg hnotyet]
    simp
  · rw [markAsRead, if_neg hnotyet]
    intro heq
    have hlen := congrArg (fun d => d.readBy.length) heq
    simp only [List.length_append, List.length_cons, List.length_nil] at hlen
    omega
  · have h2 : m ∈ sortByDateDesc (store.messages.filter (fun x => x.chat == cid)) :=
      List.mem_of_mem_drop (List.mem_of_mem_take hm)
    have h3 : m ∈ store.messages :=
      List.mem_of_mem_filter ((sortByDateDesc_perm _).mem_iff.mp h2)
    refine List.mem_map.mpr ⟨m, h3, if_pos ?_⟩
    apply List.any_eq_true.mpr
    refine ⟨m, List.mem_filter.mpr ⟨hm, ?_⟩, by simp⟩
    rw [hs, hr]
    rfl

/-- Witness for C8: user 2 fetches chat 1 and the one unread message from
user 3 acquires their read marker in the store. -/
theorem C8_witness :
    alookup 1 demoStore.chats = some [2, 3] ∧ (2:Nat) ∈ [2, 3] ∧
    ∃ msgs total,
      (getChatMessages demoStore 2 1 1 50 99).1 = FetchResult.ok msgs total ∧
      ∀ m ∈ msgs, (m.sender == 2) = false →
        (m.readBy.any (fun r => r.1 == 2)) = false →
        ((2, 99) ∈ (markAsRead m 2 99).readBy ∧
         markAsRead m 2 99 ≠ m ∧
         markAsRead m 2 99 ∈ (getChatMessages demoStore 2 1 1 50 99).2.messages) :=
  ⟨by decide, by decide,
   C8_fetch_marks_read demoStore 2 1 1 50 99 [2, 3] (by decide) (by decide)⟩

end UCN
